import Mathlib

/-!
Shallow embedding of `examples/oligopoly.py` (QuantEcon.py): the matrix
builder `setup_matrices`, the policy solver `find_PFd` /
`solve_for_opt_policy`, and the module-level parameter vector.  Machine
floats are modelled as exact rationals; the IEEE special values needed for
the degenerate `P22 = 0` analysis get their own small type `RFloat`.
-/

set_option maxHeartbeats 1600000

namespace Oligopoly

/-- Square/rectangular rational matrices indexed by `Fin`. -/
abbrev Mat (m n : ℕ) := Matrix (Fin m) (Fin n) ℚ

/-- The ten scalar parameters `[a0, a1, rho, c_eps, c, d, e, g, h, beta]`
of the oligopoly model (the script's module-level globals). -/
structure Params where
  a0 : ℚ
  a1 : ℚ
  rho : ℚ
  c_eps : ℚ
  c : ℚ
  d : ℚ
  e : ℚ
  g : ℚ
  h : ℚ
  beta : ℚ
deriving DecidableEq

/-- Source: `Alhs = np.eye(5); Alhs[4, :] = np.array([a0-d, 1., -a1, -a1-h, c])`. -/
def Alhs (p : Params) : Mat 5 5 :=
  Matrix.updateRow (1 : Mat 5 5) 4 ![p.a0 - p.d, 1, -p.a1, -p.a1 - p.h, p.c]

/-- Source: `scipy.linalg.inv`: returns the inverse of a nonsingular matrix and
raises `LinAlgError` (modelled as `none`) on a singular input. -/
def la_inv (M : Mat 5 5) : Option (Mat 5 5) :=
  if M.det = 0 then none else some (M.det⁻¹ • M.adjugate)

/-- Source: `Brhs = np.array([[0., 0., 1., 0., 0.]]).T`. -/
def Brhs : Mat 5 1 :=
  Matrix.of ![![0], ![0], ![1], ![0], ![0]]

/-- Source: `Arhs = np.eye(5); Arhs[1, 1] = rho; Arhs[3, 4] = 1.; Arhs[4, 4] = c / beta`. -/
def Arhs (p : Params) : Mat 5 5 :=
  Matrix.of ![![1, 0, 0, 0, 0],
              ![0, p.rho, 0, 0, 0],
              ![0, 0, 1, 0, 0],
              ![0, 0, 0, 1, 1],
              ![0, 0, 0, 0, p.c / p.beta]]

/-- Source: the matrix `R` from equation (40) of the lecture, assembled literally. -/
def Rmat (p : Params) : Mat 5 5 :=
  Matrix.of ![![0, 0, (p.a0 - p.e) / 2, 0, 0],
              ![0, 0, 1 / 2, 0, 0],
              ![(p.a0 - p.e) / 2, 1 / 2, -p.a1 - (1 / 2) * p.g, -p.a1 / 2, 0],
              ![0, 0, -p.a1 / 2, 0, 0],
              ![0, 0, 0, 0, 0]]

/-- Source: `Q = np.array([[c/2]])`. -/
def Qmat (p : Params) : Mat 1 1 :=
  Matrix.of ![![p.c / 2]]

/-- Source: `setup_matrices`: build `Alhs`, invert it, build `Arhs`, `R`, `Q`,
and return `(A, B, Q, R)` with `A = Alhsinv.dot(Arhs)`, `B = Alhsinv.dot(Brhs)`.
The ten scalars the body reads are the module globals (see
`setup_matrices_py` for the call convention). -/
def setup_matrices (p : Params) : Option (Mat 5 5 × Mat 5 1 × Mat 1 1 × Mat 5 5) :=
  (la_inv (Alhs p)).map (fun Alhsinv =>
    (Alhsinv * Arhs p, Alhsinv * Brhs, Qmat p, Rmat p))

/-- Closed form of the inverse of `Alhs` (verified against `Alhs` below):
rows 0-3 are identity rows and the last row is
`[-(a0-d)/c, -1/c, a1/c, (a1+h)/c, 1/c]`. -/
def AlhsInv (p : Params) : Mat 5 5 :=
  Matrix.updateRow (1 : Mat 5 5) 4
    ![-(p.a0 - p.d) / p.c, -1 / p.c, p.a1 / p.c, (p.a1 + p.h) / p.c, 1 / p.c]

/-- The script's module-level parameter values:
`a0=100, a1=1, rho=.8, c_eps=.2, c=1, d=20, e=20, g=.2, h=.2, beta=.95`. -/
def params : Params :=
  ⟨100, 1, 4 / 5, 1 / 5, 1, 20, 20, 1 / 5, 1 / 5, 19 / 20⟩

lemma Alhs_lowerTriangular (p : Params) :
    (Alhs p).BlockTriangular OrderDual.toDual := by
  intro i j hij
  have hij2 : i < j := hij
  have hi : i ≠ 4 := by
    have h1 : (i : ℕ) < (j : ℕ) := hij2
    have h2 : (j : ℕ) < 5 := j.isLt
    exact Fin.ne_of_val_ne (by omega)
  rw [Alhs, Matrix.updateRow_ne hi, Matrix.one_apply_ne (ne_of_lt hij2)]

lemma det_Alhs (p : Params) : (Alhs p).det = p.c := by
  rw [Matrix.det_of_lowerTriangular (Alhs p) (Alhs_lowerTriangular p), Fin.prod_univ_five]
  have h0 : Alhs p 0 0 = 1 := by
    rw [Alhs, Matrix.updateRow_ne (by decide), Matrix.one_apply_eq]
  have h1 : Alhs p 1 1 = 1 := by
    rw [Alhs, Matrix.updateRow_ne (by decide), Matrix.one_apply_eq]
  have h2 : Alhs p 2 2 = 1 := by
    rw [Alhs, Matrix.updateRow_ne (by decide), Matrix.one_apply_eq]
  have h3 : Alhs p 3 3 = 1 := by
    rw [Alhs, Matrix.updateRow_ne (by decide), Matrix.one_apply_eq]
  have h4 : Alhs p 4 4 = p.c := by
    rw [Alhs, Matrix.updateRow_self]
    rfl
  rw [h0, h1, h2, h3, h4]
  ring

lemma Alhs_mul_AlhsInv (p : Params) (hc : p.c ≠ 0) :
    Alhs p * AlhsInv p = 1 := by
  ext i j
  rw [Matrix.mul_apply, Fin.sum_univ_five]
  fin_cases i <;> fin_cases j <;>
    simp [Alhs, AlhsInv, Matrix.updateRow_apply, Matrix.one_apply] <;>
    field_simp

lemma AlhsInv_eq_inv (p : Params) (hc : p.c ≠ 0) :
    (Alhs p)⁻¹ = AlhsInv p :=
  Matrix.inv_eq_right_inv (Alhs_mul_AlhsInv p hc)

lemma la_inv_Alhs (p : Params) (hc : p.c ≠ 0) :
    la_inv (Alhs p) = some (AlhsInv p) := by
  have hmain : (Alhs p).det⁻¹ • (Alhs p).adjugate = AlhsInv p := by
    rw [← Ring.inverse_eq_inv, ← Matrix.inv_def, AlhsInv_eq_inv p hc]
  rw [la_inv, if_neg (by rw [det_Alhs]; exact hc), hmain]

lemma setup_matrices_eq (p : Params) (hc : p.c ≠ 0) :
    setup_matrices p =
      some (AlhsInv p * Arhs p, AlhsInv p * Brhs, Qmat p, Rmat p) := by
  rw [setup_matrices, la_inv_Alhs p hc, Option.map_some']

lemma setup_matrices_of_singular (p : Params) (hc : p.c = 0) :
    setup_matrices p = none := by
  rw [setup_matrices, la_inv, if_pos (by rw [det_Alhs]; exact hc), Option.map_none']

/-- Modelled from the spec: the external LQ Riccati solver
`LQ(Q, R, A, B, beta=beta).stationary_values() -> (P, F, d)` lives in the
`quantecon` package, outside this source file; the policy solver treats it
as a black box, so it is modelled as an arbitrary function of
`(Q, R, A, B, beta)`. -/
abbrev LQSolver :=
  Mat 1 1 → Mat 5 5 → Mat 5 5 → Mat 5 1 → ℚ → Mat 5 5 × Mat 1 5 × ℚ

/-- Source: `find_PFd`: builds `lq = LQ(Q, -R, A, B, beta=beta)` and returns
`lq.stationary_values()` unmodified. -/
def find_PFd (sv : LQSolver) (A : Mat 5 5) (B : Mat 5 1) (Q : Mat 1 1)
    (R : Mat 5 5) (beta : ℚ) : Mat 5 5 × Mat 1 5 × ℚ :=
  sv Q (-R) A B beta

/-- Source: `P22 = P[-1, -1]`. -/
def P22 (P : Mat 5 5) : ℚ := P 4 4

/-- Source: `P21 = P[-1, :-1]`. -/
def P21 (P : Mat 5 5) : Fin 4 → ℚ := fun j => P 4 j.castSucc

/-- Source: `np.eye(4, 5)`, the four by five identity slab used for the top
rows of `dotmat` and of `part1`. -/
def eye45 : Fin 4 → Fin 5 → ℚ :=
  fun i j => if (i : ℕ) = (j : ℕ) then 1 else 0

/-- Source: `dotmat[:-1, :] = np.eye(4, 5)` and
`dotmat[-1, :] = np.hstack([-P22inv*P21, P22inv])`, with `P22inv = P22**(-1)`
(machine division modelled as the exact rational inverse; see `D0_np` for the
degenerate zero case). -/
def dotmat (P : Mat 5 5) : Mat 5 5 :=
  Matrix.of fun i j =>
    if hi : (i : ℕ) < 4 then eye45 ⟨i, hi⟩ j
    else if hj : (j : ℕ) < 4 then -(P22 P)⁻¹ * P21 P ⟨j, hj⟩ else (P22 P)⁻¹

/-- Source: `coeffs = np.dot(-F, dotmat)`. -/
def coeffs (P : Mat 5 5) (F : Mat 1 5) : Mat 1 5 :=
  (-F) * dotmat P

/-- Source: `z0 = np.array([1., eta0, Q0, q0])`. -/
def z0 (eta0 Q0 q0 : ℚ) : Fin 4 → ℚ :=
  ![1, eta0, Q0, q0]

/-- Source: `x0 = -P22inv*np.dot(P21, z0)`. -/
def x0 (P : Mat 5 5) (eta0 Q0 q0 : ℚ) : ℚ :=
  -(P22 P)⁻¹ * Matrix.dotProduct (P21 P) (z0 eta0 Q0 q0)

/-- Source: `D0 = -np.dot(P22inv, P21)`, entrywise. -/
def D0 (P : Mat 5 5) : Fin 4 → ℚ :=
  fun j => -((P22 P)⁻¹ * P21 P j)

/-- Source: `part1 = np.vstack([np.eye(4, 5), P[-1, :]])`. -/
def part1 (P : Mat 5 5) : Mat 5 5 :=
  Matrix.of fun i j =>
    if hi : (i : ℕ) < 4 then eye45 ⟨i, hi⟩ j else P 4 j

/-- Source: `part2 = A - np.dot(B, F)`. -/
def part2 (A : Mat 5 5) (B : Mat 5 1) (F : Mat 1 5) : Mat 5 5 :=
  A - B * F

/-- Source: `m = np.dot(part1, part2).dot(part3)` with `part3 = dotmat`. -/
def mMat (A : Mat 5 5) (B : Mat 5 1) (F : Mat 1 5) (P : Mat 5 5) : Mat 5 5 :=
  part1 P * part2 A B F * dotmat P

/-- Source: `f = np.dot(-F, dotmat)` (recomputed separately from `coeffs`). -/
def fMat (P : Mat 5 5) (F : Mat 1 5) : Mat 1 5 :=
  (-F) * dotmat P

/-- Source: `coeff_utm1 = f12*m22*f12**(-1)` with `m22 = m[-1, -1]`,
`f12 = f[-1, -1]`. -/
def coeff_utm1 (A : Mat 5 5) (B : Mat 5 1) (F : Mat 1 5) (P : Mat 5 5) : ℚ :=
  fMat P F 0 4 * mMat A B F P 4 4 * (fMat P F 0 4)⁻¹

/-- Source: `coeff_zt = coeffs[0, :-1]`. -/
def coeff_zt (P : Mat 5 5) (F : Mat 1 5) : Fin 4 → ℚ :=
  fun j => coeffs P F 0 j.castSucc

/-- Source: `coeff_ztm1 = f12*(m12 - f12**(-1)*m22*f11)` with
`m12 = m[-1, :-1]`, `f11 = f[-1, :-1]`. -/
def coeff_ztm1 (A : Mat 5 5) (B : Mat 5 1) (F : Mat 1 5) (P : Mat 5 5) :
    Fin 4 → ℚ :=
  fun j =>
    fMat P F 0 4 *
      (mMat A B F P 4 j.castSucc -
        (fMat P F 0 4)⁻¹ * mMat A B F P 4 4 * fMat P F 0 j.castSucc)

/-- Source: `solve_for_opt_policy(params, eta0=0., Q0=0., q0=0.)`: steps 1-5
plus the unfinished coefficient-extraction block after the TODO comment
(whose results are bound and then discarded); returns `(P, F, D0)`.  The
external Riccati solver is passed in as `sv`. -/
def solve_for_opt_policy (sv : LQSolver) (p : Params) (eta0 Q0 q0 : ℚ) :
    Option (Mat 5 5 × Mat 1 5 × (Fin 4 → ℚ)) :=
  (setup_matrices p).map (fun ABQR =>
    let A := ABQR.1
    let B := ABQR.2.1
    let Q := ABQR.2.2.1
    let R := ABQR.2.2.2
    let PFd := find_PFd sv A B Q R p.beta
    let P := PFd.1
    let F := PFd.2.1
    let cs := coeffs P F
    let x0v := x0 P eta0 Q0 q0
    let cu := coeff_utm1 A B F P
    let cz := coeff_zt P F
    let czm := coeff_ztm1 A B F P
    (P, F, D0 P))

/-- The same function with the experimental block after the TODO comment
removed: steps 1-5 only, returning `(P, F, D0)`. -/
def solve_for_opt_policy_noblock (sv : LQSolver) (p : Params) (eta0 Q0 q0 : ℚ) :
    Option (Mat 5 5 × Mat 1 5 × (Fin 4 → ℚ)) :=
  (setup_matrices p).map (fun ABQR =>
    let A := ABQR.1
    let B := ABQR.2.1
    let Q := ABQR.2.2.1
    let R := ABQR.2.2.2
    let PFd := find_PFd sv A B Q R p.beta
    let P := PFd.1
    let F := PFd.2.1
    let cs := coeffs P F
    let x0v := x0 P eta0 Q0 q0
    (P, F, D0 P))

/-- IEEE-754 special values needed to describe numpy float64 arithmetic at a
degenerate `P22`: an exact finite value, the two infinities, and NaN. -/
inductive RFloat where
  | finite : ℚ → RFloat
  | posInf : RFloat
  | negInf : RFloat
  | nan : RFloat
deriving DecidableEq

/-- Source: `P22inv = P22**(-1)` under numpy float64 semantics: for a zero
base, numpy emits a RuntimeWarning and returns `inf`; no exception is
raised. -/
def np_pow_neg_one (x : ℚ) : RFloat :=
  if x = 0 then RFloat.posInf else RFloat.finite x⁻¹

/-- Multiplication of an IEEE float value by a finite float: an infinity
times zero is NaN, an infinity times a nonzero value is a signed infinity. -/
def RFloat.mulFin : RFloat → ℚ → RFloat
  | RFloat.finite q, x => RFloat.finite (q * x)
  | RFloat.posInf, x =>
      if 0 < x then RFloat.posInf else if x < 0 then RFloat.negInf else RFloat.nan
  | RFloat.negInf, x =>
      if 0 < x then RFloat.negInf else if x < 0 then RFloat.posInf else RFloat.nan
  | RFloat.nan, _ => RFloat.nan

/-- IEEE negation. -/
def RFloat.neg : RFloat → RFloat
  | RFloat.finite q => RFloat.finite (-q)
  | RFloat.posInf => RFloat.negInf
  | RFloat.negInf => RFloat.posInf
  | RFloat.nan => RFloat.nan

/-- Source: the line `D0 = -np.dot(P22inv, P21)` under numpy float64
semantics, entrywise; used to analyse the degenerate case `P22 = 0`. -/
def D0_np (P : Mat 5 5) : Fin 4 → RFloat :=
  fun j => RFloat.neg ((np_pow_neg_one (P22 P)).mulFin (P21 P j))

/-- A value-function matrix with `P22 = P[4,4] = 0`, `P[4,0] = 1` and zeros
elsewhere: a degenerate input for the policy solver's step 2. -/
def Pdegen : Mat 5 5 :=
  Matrix.of fun i j => if (i : ℕ) = 4 ∧ (j : ℕ) = 0 then 1 else 0

/-- The Python call convention of `setup_matrices(params)`: the body never
reads its `params` argument; every quantity it uses (`a0` ... `beta`) is read
from the module-level globals, here `globalsEnv`. -/
def setup_matrices_py (globalsEnv : Params) (ps : Params) :
    Option (Mat 5 5 × Mat 5 1 × Mat 1 1 × Mat 5 5) :=
  setup_matrices globalsEnv

/-- The module globals with `a0` rebound to `101` (the other nine values as
in `params`); used to exhibit the dependence of `setup_matrices` on the
globals rather than on its argument. -/
def paramsAlt : Params :=
  ⟨101, 1, 4 / 5, 1 / 5, 1, 20, 20, 1 / 5, 1 / 5, 19 / 20⟩

/-- The module globals with `c` rebound to `0`: makes `Alhs` singular. -/
def paramsC0 : Params :=
  ⟨100, 1, 4 / 5, 1 / 5, 0, 20, 20, 1 / 5, 1 / 5, 19 / 20⟩

/-- The identity matrix as a well-behaved value-function input
(`P22 = 1 ≠ 0`) for witnesses. -/
def Pone : Mat 5 5 := (1 : Mat 5 5)

/-- Symmetry of the builder's state-cost matrix. -/
lemma Rmat_symm (p : Params) : Matrix.transpose (Rmat p) = Rmat p := by
  ext i j
  fin_cases i <;> fin_cases j <;>
    simp [Rmat, Matrix.transpose_apply, Matrix.vecHead, Matrix.vecTail]

/-- C2: `find_PFd` invokes the external LQ Riccati solver with the negated
state-cost matrix `-R` (and `Q`, `A`, `B`, `beta` unchanged) and returns the
solver's `(P, F, d)` triple unmodified. -/
theorem find_PFd_negates_R (sv : LQSolver) (A : Mat 5 5) (B : Mat 5 1)
    (Q : Mat 1 1) (R : Mat 5 5) (beta : ℚ) :
    find_PFd sv A B Q R beta = sv Q (-R) A B beta :=
  rfl

/-- C4: `det (Alhs) = c`, and whenever `Alhs` is singular (in particular for
`c = 0`) the matrix builder raises at inversion time (`none`) instead of
returning a degenerate `A`. -/
theorem setup_matrices_singular_raises (p : Params) :
    (Alhs p).det = p.c ∧ ((Alhs p).det = 0 → setup_matrices p = none) := by
  refine ⟨det_Alhs p, fun hdet => ?_⟩
  refine setup_matrices_of_singular p ?_
  rw [← det_Alhs p]
  exact hdet

/-- Witness for C4: at the script's parameters with `c` rebound to `0`,
`Alhs` is singular and the builder reports the error. -/
theorem setup_matrices_singular_raises_witness :
    (Alhs paramsC0).det = 0 ∧ setup_matrices paramsC0 = none := by
  have h := setup_matrices_singular_raises paramsC0
  have hz : (Alhs paramsC0).det = 0 := by rw [h.1]; rfl
  exact ⟨hz, h.2 hz⟩

/-- C6: for every parameter tuple the builder's state-cost matrix `R` is
symmetric, with entries `(0,2)` and `(2,0)` equal to `(a0-e)/2` and entries
`(1,2)` and `(2,1)` equal to `1/2`. -/
theorem Rmat_symmetric_entries (p : Params) :
    Matrix.transpose (Rmat p) = Rmat p
    ∧ Rmat p 0 2 = (p.a0 - p.e) / 2 ∧ Rmat p 2 0 = (p.a0 - p.e) / 2
    ∧ Rmat p 1 2 = 1 / 2 ∧ Rmat p 2 1 = 1 / 2 := by
  refine ⟨Rmat_symm p, ?_, ?_, ?_, ?_⟩ <;> rfl

/-- C7: at the script's concrete parameters the builder succeeds and yields a
5x5 `A`, 5x1 `B`, `Q = [[1/2]]`, and a symmetric `R` with entries `(0,2)` and
`(2,0)` equal to `40` and `(1,2)`, `(2,1)` equal to `1/2`. -/
theorem concrete_scenario_matrices :
    (setup_matrices params).map
        (fun r => (r.2.2.1, r.2.2.2 0 2, r.2.2.2 2 0, r.2.2.2 1 2, r.2.2.2 2 1)) =
      some (Matrix.of ![![(1 : ℚ) / 2]], 40, 40, 1 / 2, 1 / 2)
    ∧ Matrix.transpose (Rmat params) = Rmat params := by
  refine ⟨?_, Rmat_symm params⟩
  rw [setup_matrices_eq params (by decide), Option.map_some']
  simp only [Option.some.injEq, Prod.mk.injEq]
  refine ⟨?_, ?_, ?_, ?_, ?_⟩
  · ext i j
    fin_cases i <;> fin_cases j <;> norm_num [Qmat, params]
  all_goals norm_num [Rmat, params]

/-- C9 (code bug): two calls of `setup_matrices` with the identical `params`
argument return different matrices when the module globals differ, because
the body reads the globals and ignores the argument, contradicting its own
docstring; shown on the `R` entry `(0,2) = (a0-e)/2`. -/
theorem setup_matrices_ignores_argument :
    (setup_matrices_py params params).map (fun r => r.2.2.2 0 2) = some 40
    ∧ (setup_matrices_py paramsAlt params).map (fun r => r.2.2.2 0 2) =
        some (81 / 2) := by
  constructor <;>
    · simp only [setup_matrices_py]
      rw [setup_matrices_eq _ (by decide), Option.map_some']
      norm_num [Rmat, params, paramsAlt]

/-- The control-input matrix produced by the builder, in closed form: the
third row is `1`, the last row is `a1/c`, everything else is `0`. -/
lemma B_eq (p : Params) :
    AlhsInv p * Brhs = Matrix.of ![![0], ![0], ![1], ![0], ![p.a1 / p.c]] := by
  ext i j
  rw [Matrix.mul_apply, Fin.sum_univ_five]
  fin_cases i <;> fin_cases j <;>
    simp [AlhsInv, Brhs, Matrix.updateRow_apply, Matrix.one_apply,
      Matrix.vecHead, Matrix.vecTail]

/-- C1: with `Alhs` invertible, the builder returns `A = Alhs⁻¹ * Arhs` and
`B = Alhs⁻¹ * [0,0,1,0,0]ᵗ`, where `Alhs` is the identity except its last
row `[a0-d, 1, -a1, -a1-h, c]` and `Arhs` is the identity except entries
`(1,1) = rho`, `(3,4) = 1`, `(4,4) = c/beta`. -/
theorem setup_matrices_builds_inverse_system (p : Params)
    (hdet : (Alhs p).det ≠ 0) :
    (∀ i j : Fin 5, i ≠ 4 → Alhs p i j = if i = j then 1 else 0)
    ∧ Alhs p 4 = ![p.a0 - p.d, 1, -p.a1, -p.a1 - p.h, p.c]
    ∧ (∀ i j : Fin 5, ¬(i = 1 ∧ j = 1) → ¬(i = 3 ∧ j = 4) → ¬(i = 4 ∧ j = 4) →
        Arhs p i j = if i = j then 1 else 0)
    ∧ Arhs p 1 1 = p.rho ∧ Arhs p 3 4 = 1 ∧ Arhs p 4 4 = p.c / p.beta
    ∧ (∀ i : Fin 5, Brhs i 0 = if (i : ℕ) = 2 then 1 else 0)
    ∧ setup_matrices p =
        some ((Alhs p)⁻¹ * Arhs p, (Alhs p)⁻¹ * Brhs, Qmat p, Rmat p) := by
  have hc : p.c ≠ 0 := by rw [← det_Alhs p]; exact hdet
  refine ⟨?_, ?_, ?_, rfl, rfl, rfl, ?_, ?_⟩
  · intro i j hi
    rw [Alhs, Matrix.updateRow_ne hi]
    exact Matrix.one_apply
  · rw [Alhs, Matrix.updateRow_self]
  · intro i j h1 h2 h3
    fin_cases i <;> fin_cases j <;>
      simp_all [Arhs, Matrix.vecHead, Matrix.vecTail]
  · intro i
    fin_cases i <;> rfl
  · rw [setup_matrices_eq p hc, AlhsInv_eq_inv p hc]

/-- Witness for C1 at the script's parameters: `Alhs` is invertible there and
the builder returns the inverse-based system. -/
theorem setup_matrices_builds_inverse_system_witness :
    (Alhs params).det ≠ 0
    ∧ setup_matrices params =
        some ((Alhs params)⁻¹ * Arhs params, (Alhs params)⁻¹ * Brhs,
          Qmat params, Rmat params) := by
  have hdet : (Alhs params).det ≠ 0 := by rw [det_Alhs]; decide
  exact ⟨hdet, (setup_matrices_builds_inverse_system params hdet).2.2.2.2.2.2.2⟩

/-- C5 counterexample: at the script's parameters the builder succeeds and
the returned `B` does not have exactly one nonzero row: rows 2 and 4 are
both nonzero. -/
theorem B_two_nonzero_rows :
    (setup_matrices params).elim False
      (fun r => ¬ ∃! i : Fin 5, r.2.1 i 0 ≠ 0) := by
  rw [setup_matrices_eq params (by decide)]
  show ¬ ∃! i : Fin 5, (AlhsInv params * Brhs) i 0 ≠ 0
  rw [B_eq params]
  rintro ⟨i, hi, hu⟩
  have h2 : (Matrix.of ![![(0 : ℚ)], ![0], ![1], ![0],
      ![params.a1 / params.c]] : Mat 5 1) 2 0 ≠ 0 := by
    norm_num [Matrix.vecHead, Matrix.vecTail]
  have h4 : (Matrix.of ![![(0 : ℚ)], ![0], ![1], ![0],
      ![params.a1 / params.c]] : Mat 5 1) 4 0 ≠ 0 := by
    norm_num [Matrix.vecHead, Matrix.vecTail, params]
  exact absurd ((hu 2 h2).trans (hu 4 h4).symm) (by decide)

/-- C5 amended: the returned `B` equals `[0, 0, 1, 0, a1/c]ᵗ` whenever the
builder succeeds; it has exactly one nonzero row iff `a1 = 0` (rows 2 and 4
are both nonzero otherwise). -/
theorem B_column_structure (p : Params) (hc : p.c ≠ 0) :
    (setup_matrices p).map (fun r => r.2.1) =
      some (Matrix.of ![![0], ![0], ![1], ![0], ![p.a1 / p.c]])
    ∧ ((∃! i : Fin 5,
          (Matrix.of ![![(0 : ℚ)], ![0], ![1], ![0], ![p.a1 / p.c]] : Mat 5 1)
            i 0 ≠ 0)
        ↔ p.a1 = 0) := by
  constructor
  · rw [setup_matrices_eq p hc, Option.map_some']
    exact congrArg some (B_eq p)
  constructor
  · rintro ⟨i, hi, hu⟩
    by_contra ha
    have h2 : (Matrix.of ![![(0 : ℚ)], ![0], ![1], ![0],
        ![p.a1 / p.c]] : Mat 5 1) 2 0 ≠ 0 := by
      norm_num [Matrix.vecHead, Matrix.vecTail]
    have h4 : (Matrix.of ![![(0 : ℚ)], ![0], ![1], ![0],
        ![p.a1 / p.c]] : Mat 5 1) 4 0 ≠ 0 := by
      have hq : p.a1 / p.c ≠ 0 := div_ne_zero ha hc
      simpa [Matrix.vecHead, Matrix.vecTail] using hq
    exact absurd ((hu 2 h2).trans (hu 4 h4).symm) (by decide)
  · intro ha
    refine ⟨2, by norm_num [Matrix.vecHead, Matrix.vecTail], ?_⟩
    intro y hy
    fin_cases y <;> simp_all [Matrix.vecHead, Matrix.vecTail, ha]

/-- Witness for C5 amended, at the script's parameters (`a1 = 1`, `c = 1`). -/
theorem B_column_structure_witness :
    params.c ≠ 0
    ∧ ((setup_matrices params).map (fun r => r.2.1) =
        some (Matrix.of ![![0], ![0], ![1], ![0], ![params.a1 / params.c]])
      ∧ ((∃! i : Fin 5,
            (Matrix.of ![![(0 : ℚ)], ![0], ![1], ![0],
              ![params.a1 / params.c]] : Mat 5 1) i 0 ≠ 0)
          ↔ params.a1 = 0)) :=
  ⟨by decide, B_column_structure params (by decide)⟩

/-- C3 counterexample: at a value-function matrix with `P22 = 0` the policy
solver's `P22**(-1)` evaluates to `inf` (numpy float64 semantics, no
exception), and the returned `D0` contains `-inf` and NaN entries rather
than an error. -/
theorem p22_zero_gives_inf_not_error :
    np_pow_neg_one (P22 Pdegen) = RFloat.posInf
    ∧ D0_np Pdegen 0 = RFloat.negInf
    ∧ D0_np Pdegen 1 = RFloat.nan := by
  refine ⟨rfl, rfl, rfl⟩

/-- C3 amended: when `P22 = 0`, `P22**(-1)` is `inf` under numpy float64
semantics and each returned `D0` entry is `-inf`, `inf` or NaN according to
the sign of the corresponding `P21` entry; no error is raised. -/
theorem D0_np_of_P22_zero (P : Mat 5 5) (h : P 4 4 = 0) (j : Fin 4) :
    np_pow_neg_one (P22 P) = RFloat.posInf
    ∧ D0_np P j =
        (if 0 < P 4 j.castSucc then RFloat.negInf
         else if P 4 j.castSucc < 0 then RFloat.posInf else RFloat.nan) := by
  have hp : np_pow_neg_one (P22 P) = RFloat.posInf := by
    rw [np_pow_neg_one, P22, h, if_pos rfl]
  refine ⟨hp, ?_⟩
  simp only [D0_np, P21, hp]
  rcases lt_trichotomy (P 4 j.castSucc) 0 with h1 | h1 | h1
  · rw [if_neg (asymm h1), if_pos h1]
    simp [RFloat.mulFin, RFloat.neg, asymm h1, h1]
  · rw [if_neg (by rw [h1]; exact lt_irrefl 0), if_neg (by rw [h1]; exact lt_irrefl 0)]
    simp [RFloat.mulFin, RFloat.neg, h1]
  · rw [if_pos h1]
    simp [RFloat.mulFin, RFloat.neg, h1]

/-- Witness for C3 amended at the degenerate matrix `Pdegen`. -/
theorem D0_np_of_P22_zero_witness :
    Pdegen 4 4 = 0
    ∧ (np_pow_neg_one (P22 Pdegen) = RFloat.posInf
      ∧ D0_np Pdegen 0 =
          (if 0 < Pdegen 4 (Fin.castSucc 0) then RFloat.negInf
           else if Pdegen 4 (Fin.castSucc 0) < 0 then RFloat.posInf
           else RFloat.nan)) :=
  ⟨by decide, D0_np_of_P22_zero Pdegen (by decide) 0⟩

/-- C8: with `P22 = P[4,4]` nonzero, the solver's `dotmat` has the first four
rows of the identity on top and `[-P22inv*P21, P22inv]` as last row,
`coeffs = -F * dotmat`, `z0 = [1, eta0, Q0, q0]`,
`x0 = -P22inv * (P21 . z0)`, `D0 = -P22inv * P21`, and the function returns
`D0` with `(P, F)`. -/
theorem solve_policy_transform_spec (P : Mat 5 5) (F : Mat 1 5)
    (eta0 Q0 q0 : ℚ) (p : Params) (hP : P 4 4 ≠ 0) (hc : p.c ≠ 0) :
    (∀ i : Fin 4, ∀ j : Fin 5, dotmat P i.castSucc j = (1 : Mat 5 5) i.castSucc j)
    ∧ (∀ j : Fin 4, dotmat P 4 j.castSucc = -((P 4 4)⁻¹ * P 4 j.castSucc))
    ∧ dotmat P 4 4 = (P 4 4)⁻¹
    ∧ coeffs P F = -(F * dotmat P)
    ∧ z0 eta0 Q0 q0 = ![1, eta0, Q0, q0]
    ∧ x0 P eta0 Q0 q0 =
        -((P 4 4)⁻¹ * ∑ j : Fin 4, P 4 j.castSucc * z0 eta0 Q0 q0 j)
    ∧ (∀ j : Fin 4, D0 P j = -((P 4 4)⁻¹ * P 4 j.castSucc))
    ∧ solve_for_opt_policy (fun _ _ _ _ _ => (P, F, 0)) p eta0 Q0 q0 =
        some (P, F, D0 P) := by
  refine ⟨?_, ?_, rfl, ?_, rfl, ?_, fun j => rfl, ?_⟩
  · intro i j
    have hi : ((i.castSucc : Fin 5) : ℕ) < 4 := by simpa using i.isLt
    simp only [dotmat, Matrix.of_apply, dif_pos hi, eye45, Matrix.one_apply]
    simp [Fin.ext_iff]
  · intro j
    have h4 : ¬ ((4 : Fin 5) : ℕ) < 4 := by decide
    have hj : ((j.castSucc : Fin 5) : ℕ) < 4 := by simpa using j.isLt
    have hmk : (⟨((j.castSucc : Fin 5) : ℕ), hj⟩ : Fin 4) = j := by
      apply Fin.ext
      simp
    simp only [dotmat, Matrix.of_apply, dif_neg h4, dif_pos hj, P21, P22, hmk,
      neg_mul]
  · rw [coeffs, Matrix.neg_mul]
  · simp [x0, Matrix.dotProduct, P21, P22, neg_mul]
  · rw [solve_for_opt_policy, setup_matrices_eq p hc, Option.map_some']
    rfl

/-- Witness for C8 at the identity value function and the script's
parameters. -/
theorem solve_policy_transform_spec_witness :
    Pone 4 4 ≠ 0 ∧ params.c ≠ 0
    ∧ solve_for_opt_policy (fun _ _ _ _ _ => (Pone, 0, 0)) params 0 0 0 =
        some (Pone, 0, D0 Pone) :=
  ⟨by decide, by decide,
    (solve_policy_transform_spec Pone 0 0 0 0 params (by decide)
        (by decide)).2.2.2.2.2.2.2⟩

/-- C10: the experimental coefficient-extraction block after the TODO comment
binds only local values and never influences the returned `(P, F, D0)`. -/
theorem todo_block_no_effect (sv : LQSolver) (p : Params) (eta0 Q0 q0 : ℚ) :
    solve_for_opt_policy sv p eta0 Q0 q0 =
      solve_for_opt_policy_noblock sv p eta0 Q0 q0 :=
  rfl

end Oligopoly
